import Mathlib

/-!
Verification of the throttled, integrity-verified batch file transfer engine
of this repository, as implemented by the two workers
`FileOperationWorker` (absolutelyfreesync.py) and `FileWorker`
(speed_adjustable_copy.py).

The embedding is a shallow one:
* file contents are lists of byte values (`List Nat`);
* the filesystem and directory walk are oracles supplied in an environment
  record, so that I/O faults (unreadable files, corrupted destination
  contents) can be injected;
* wall-clock time in the throttled copier is modelled with exact rationals,
  an oracle giving the actual read+write duration of each chunk, and an
  explicit clock threaded through the loop;
* the cooperative cancellation flag is modelled by the index of the first
  poll that observes `False` (`stopPoll`; `none` means stop is never
  requested).  The real flag only ever moves from `True` to `False`, which
  this representation captures by monotonicity.
* each worker produces a trace of events: the Qt signals it emits and the
  filesystem actions it performs, in program order.
-/

/-! ### Digest engine: `FileOperationWorker._calculate_md5` -/

/-- Block size used by `_calculate_md5` (its `blocksize=65536` default,
which is what both call sites use). -/
def BLOCKSIZE : Nat := 65536

/-- Model of a `hashlib.md5()` object: the state is the list of bytes
absorbed so far.  `hashlib` guarantees that `m.update(a); m.update(b)` is
equivalent to `m.update(a + b)`, which is what this state representation
encodes. -/
abbrev Md5State := List Nat

/-- `hashlib.md5()`: a fresh accumulator that has absorbed nothing. -/
def md5init : Md5State := []

/-- `hasher.update(buf)`: absorb a block of bytes. -/
def md5update (s : Md5State) (block : List Nat) : Md5State := s ++ block

/-- Lowercase hexadecimal digit for a value below 16. -/
def hexChar (n : Nat) : Char :=
  if n < 10 then Char.ofNat (48 + n) else Char.ofNat (87 + n)

/-- Fixed-width big-endian hexadecimal rendering: `toHexDigits k n` is the
`k` lowercase hex digits of `n mod 16^k`, most significant first. -/
def toHexDigits : Nat → Nat → List Char
  | 0, _ => []
  | k + 1, n => toHexDigits k (n / 16) ++ [hexChar (n % 16)]

/-- Stand-in for the MD5 compression pipeline of `hashlib`, which is
external library code: the digest value is some fixed pure function of the
absorbed byte sequence.  The claims under verification depend only on the
digest being a function of the content, not on the concrete mixing. -/
def md5mix (s : List Nat) : Nat :=
  s.foldl (fun h b => (h * 131 + b + 17) % 4294967296) 0

/-- `hasher.hexdigest()`: the digest of the absorbed bytes as a fixed-width
lowercase hexadecimal string. -/
def md5hexdigest (s : Md5State) : String :=
  String.mk (toHexDigits 32 (md5mix s))

/-- Split a byte list into consecutive blocks of `bs` bytes (the last block
may be shorter), accumulator-passing so that the recursion is structural.
This is the sequence of `afile.read(blocksize)` results of the read loop in
`_calculate_md5`. -/
def chunksGo (bs : Nat) : List Nat → List Nat → List (List Nat)
  | [], acc => if acc = [] then [] else [acc.reverse]
  | a :: l, acc =>
    if acc.length + 1 = bs then (a :: acc).reverse :: chunksGo bs l []
    else chunksGo bs l (a :: acc)

/-- The successive non-empty blocks of size `bs` (last one possibly short)
of a byte list. -/
def chunksOf (bs : Nat) (l : List Nat) : List (List Nat) := chunksGo bs l []

/-- `FileOperationWorker._calculate_md5(filepath)`
(absolutelyfreesync.py lines 119-131): opens the file, reads it in
`BLOCKSIZE`-byte blocks, feeds each block to the accumulator with
`hasher.update`, and returns `hasher.hexdigest()`.  Any exception while
opening or reading is caught and the sentinel string `"ERROR_HASH"` is
returned instead; the function never raises to its caller.  The oracle
`readFile` returns `none` when the file cannot be opened or read to
completion. -/
def calculate_md5 (readFile : String → Option (List Nat)) (filepath : String) : String :=
  match readFile filepath with
  | none => "ERROR_HASH"
  | some content => md5hexdigest ((chunksOf BLOCKSIZE content).foldl md5update md5init)

/-- Decidable check that a character is a lowercase hexadecimal digit. -/
def isLowerHexChar (c : Char) : Bool :=
  (('0' ≤ c) && (c ≤ '9')) || (('a' ≤ c) && (c ≤ 'f'))

/-- Decidable check that every character of a string is a lowercase
hexadecimal digit. -/
def isLowerHexStr (s : String) : Bool := s.data.all isLowerHexChar

/-! ### Path helpers (models of the `os.path` functions used) -/

/-- `os.path.join(a, b)` for the forward-slash case. -/
def joinPath (a b : String) : String := a ++ "/" ++ b

/-- `os.path.relpath(p, base)` for the case the worker uses: `p` is a path
strictly below `base`, so the relative path is `p` with `base` and the
separator removed. -/
def relPath (p base : String) : String :=
  String.mk (p.data.drop (base.data.length + 1))

/-- Characters after the last separator, accumulator-passing. -/
def baseNameAux : List Char → List Char → List Char
  | [], acc => acc.reverse
  | '/' :: r, _ => baseNameAux r []
  | c :: r, acc => baseNameAux r (c :: acc)

/-- `os.path.basename(p)`. -/
def baseName (p : String) : String := String.mk (baseNameAux p.data [])

/-- `os.path.dirname(p)`: everything before the last separator (empty when
there is none). -/
def dirName (p : String) : String :=
  String.mk (p.data.take (p.data.length - (baseNameAux p.data []).length - 1))

/-! ### Cancellation flag -/

/-- Value the cancellation flag reads at its `k`-th poll, given the index
`stopPoll` of the first poll that observes the stop request (`none` when no
stop is ever requested).  The real `_is_running` flag starts `True` and is
only ever set to `False`, so the sequence of polled values is monotone,
which this representation enforces. -/
def isRunning (stopPoll : Option Nat) (k : Nat) : Bool :=
  match stopPoll with
  | none => true
  | some s => decide (k < s)

/-! ### Batch worker: `FileOperationWorker` (absolutelyfreesync.py) -/

/-- One queued task, as built by `TaskSetupDialog`: source directory,
destination directory and mode string (`"verify_and_delete"` or
`"copy"`). -/
structure AfsTask where
  source : String
  destination : String
  mode : String

/-- Environment of one `FileOperationWorker.run` execution.  `existsDir`
is the `os.path.exists` oracle, `walk` gives the list of regular files
found under a directory by `os.walk` (in walk order), `readFile` gives the
byte content a path reads as (`none` = unreadable), and `stopPoll` encodes
the cancellation flag as above.  Because the model does not track
destination contents dynamically, `readFile` on a destination path plays
the role of "what the destination file reads back as after the copy",
which is where corrupted-write faults are injected. -/
structure AfsEnv where
  existsDir : String → Bool
  walk : String → List String
  readFile : String → Option (List Nat)
  stopPoll : Option Nat

/-- `self._calculate_md5(path)` as invoked by `_process_directory`, reading
through the environment's filesystem oracle. -/
def calcMd5 (env : AfsEnv) (p : String) : String :=
  calculate_md5 env.readFile p

/-- Events of the batch worker: the Qt signals it emits
(`overall_progress`, `operation_progress`, `operation_finished`) and the
filesystem actions it performs, in program order.  `verify s d ok` records
the MD5 comparison of lines 99-102 together with its outcome. -/
inductive AfsEv where
  | overallProgress (pct : Nat)
  | opProgress (idx : Nat) (filename msg : String)
  | finished (idx : Nat) (ok : Bool) (msg : String)
  | mkdirs (dir : String)
  | copy2 (src dst : String)
  | verify (src dst : String) (ok : Bool)
  | removeSrc (p : String)
  deriving DecidableEq

/-- How a `_process_directory` call ended: ran to completion, returned
early because a poll observed the stop request, or returned early after
emitting a failure. -/
inductive AfsExit where
  | completed
  | stopped
  | failed
  deriving DecidableEq

/-- The per-file loop of `_process_directory` (lines 81-117), processing
the remaining `files` of the walk.  `fileIdx` is the index of the first
remaining file, `total` the total file count, `k` the index of the next
poll of the cancellation flag.  Returns the events emitted, the next poll
index, and how the loop ended.  `shutil.copy2` and `os.remove` are
modelled as succeeding; faults are injected through the digest oracle. -/
def processFiles (env : AfsEnv) (idx : Nat) (srcDir dstDir mode : String) :
    List String → Nat → Nat → Nat → List AfsEv × Nat × AfsExit
  | [], _, _, k =>
    ([AfsEv.finished idx true ("Operation **" ++ mode ++ "** successful.")], k, AfsExit.completed)
  | f :: rest, fileIdx, total, k =>
    if isRunning env.stopPoll k then
      let dstF := joinPath dstDir (relPath f srcDir)
      let fname := baseName f
      let srcH := calcMd5 env f
      let dstH := calcMd5 env dstF
      let copyEvs := [AfsEv.mkdirs (dirName dstF),
                      AfsEv.opProgress idx fname "Copying...",
                      AfsEv.copy2 f dstF,
                      AfsEv.opProgress idx fname "Verifying MD5..."]
      if srcH ≠ dstH then
        (copyEvs ++ [AfsEv.verify f dstF false,
           AfsEv.finished idx false ("MD5 Mismatch for " ++ fname ++ ". Copy failed.")],
         k + 1, AfsExit.failed)
      else
        let delEvs := if mode = "verify_and_delete"
          then [AfsEv.opProgress idx fname "Deleting Source...", AfsEv.removeSrc f]
          else []
        let rec2 := processFiles env idx srcDir dstDir mode rest (fileIdx + 1) total (k + 1)
        (copyEvs ++ [AfsEv.verify f dstF true] ++ delEvs ++
           [AfsEv.overallProgress (((fileIdx + 1) * 100) / total)] ++ rec2.1,
         rec2.2.1, rec2.2.2)
    else ([], k + 1, AfsExit.stopped)

/-- `FileOperationWorker._process_directory` (lines 65-117): missing source
directory is an immediate failure before anything is created; otherwise the
destination root is created, the source tree is walked, an empty walk is an
immediate success, and otherwise the per-file loop runs. -/
def processDirectory (env : AfsEnv) (idx : Nat) (srcDir dstDir mode : String) (k : Nat) :
    List AfsEv × Nat × AfsExit :=
  if env.existsDir srcDir = false then
    ([AfsEv.finished idx false ("Source directory not found: " ++ srcDir)], k, AfsExit.failed)
  else
    let files := env.walk srcDir
    if files.length = 0 then
      ([AfsEv.mkdirs dstDir,
        AfsEv.finished idx true "Source directory is empty. Operation successful."],
       k, AfsExit.completed)
    else
      let r := processFiles env idx srcDir dstDir mode files 0 files.length k
      (AfsEv.mkdirs dstDir :: r.1, r.2.1, r.2.2)

/-- The task loop of `FileOperationWorker.run` (lines 36-61): before each
task the cancellation flag is polled (breaking out of the loop when it
reads `False`), per-task progress is reset, and a task with an unknown mode
string is reported as failed without touching the filesystem.  `i` is the
index of the next task, `k` the next poll index. -/
def runTasksGo (env : AfsEnv) : List AfsTask → Nat → Nat → List AfsEv
  | [], _, _ => []
  | t :: rest, i, k =>
    if isRunning env.stopPoll k then
      if t.mode = "verify_and_delete" ∨ t.mode = "copy" then
        let r := processDirectory env i t.source t.destination t.mode (k + 1)
        AfsEv.overallProgress 0 :: r.1 ++ runTasksGo env rest (i + 1) r.2.1
      else
        AfsEv.overallProgress 0 :: AfsEv.finished i false ("Unknown mode: " ++ t.mode)
          :: runTasksGo env rest (i + 1) (k + 1)
    else []

/-- `FileOperationWorker.run` (lines 36-63): run the queued tasks in order,
then emit the final `overall_progress(100)` (which happens after the loop
whether it completed or was broken out of). -/
def runTasks (env : AfsEnv) (tasks : List AfsTask) : List AfsEv :=
  runTasksGo env tasks 0 0 ++ [AfsEv.overallProgress 100]

/-- `FileCopierApp._handle_task_completion` together with
`_stop_operations` (lines 341-351 and 366-381): when a task completes
unsuccessfully the app calls `_stop_operations`, which opens a modal
confirmation dialog and calls `worker.stop()` only if the user answers
Yes.  The result is whether a stop request is actually issued. -/
def handlerRequestsStop (success : Bool) (userConfirmsStop : Bool) : Bool :=
  !success && userConfirmsStop

/-! ### Throttled single-file copier: `FileWorker` (speed_adjustable_copy.py) -/

/-- Chunk size of the throttled copy loop (line 15): 1 MiB. -/
def CHUNK_SIZE : Nat := 1024 * 1024

/-- Maximum slider speed in MB/s (line 16). -/
def MAX_SPEED_MBPS : Nat := 500

/-- Maximum slider speed in bytes/s (line 17). -/
def MAX_SPEED_BPS : Nat := MAX_SPEED_MBPS * 1024 * 1024

/-- Lines 66-68 of `_execute_file_operation`: the configured limit in
bytes/s; a configured ceiling of `0` MB/s is replaced by the fixed constant
`MAX_SPEED_BPS * 2` so that the pacing division is never by zero. -/
def speed_limit_bps (mbps : Nat) : ℚ :=
  let v : Nat := mbps * 1024 * 1024
  if v ≤ 0 then ((MAX_SPEED_BPS * 2 : Nat) : ℚ) else (v : ℚ)

/-- Events of the throttled copier: its Qt signals (`progress_update`,
`speed_update`, `status_message`, `finished`) and its filesystem actions.
`openDest` is the `open(dest, 'wb')` that creates/truncates the
destination, `sleep` is the throttling delay, `writeChunk` a completed
chunk write. -/
inductive SacEv where
  | progressUpdate (pct : Nat)
  | speedUpdate (mbps : ℚ)
  | statusMsg (s : String)
  | finishedSig
  | openDest
  | writeChunk (len : Nat)
  | sleep (d : ℚ)
  | removeDest
  | removeSrc
  deriving DecidableEq

/-- The body of one iteration of the copy loop (lines 76-109), for a chunk
of `chunkLen` bytes whose read+write took `actual` seconds of wall time:
write the chunk, emit the progress percentage, compute
`target = chunkLen / limit` and sleep `target - actual` if that is
positive, then emit the cumulative throughput sample
`bytes' / elapsed` (0 if no time has elapsed), converted to MB/s for the
`speed_update` signal.  `clock` is the wall time elapsed since `start_time`
when the iteration begins; the returned clock is the elapsed time when it
ends. -/
def sacStep (limit actual : ℚ) (fileSize bytes chunkLen : Nat) (clock : ℚ) :
    List SacEv × ℚ × Nat :=
  let bytes' := bytes + chunkLen
  let pct := (bytes' * 100) / fileSize
  let clockW := clock + actual
  let target : ℚ := (chunkLen : ℚ) / limit
  let delay := target - actual
  let clock' := if delay > 0 then clockW + delay else clockW
  let sleepEvs := if delay > 0 then [SacEv.sleep delay] else []
  let bps : ℚ := if clock' > 0 then (bytes' : ℚ) / clock' else 0
  ([SacEv.writeChunk chunkLen, SacEv.progressUpdate pct] ++ sleepEvs ++
     [SacEv.speedUpdate (bps / (1024 * 1024))],
   clock', bytes')

/-- The `while self._is_running:` copy loop of lines 74-109, iterating over
the successive `fsrc.read(CHUNK_SIZE)` results.  `k` is the index of the
poll performed by the loop condition of the current iteration.  Returns the
events, the elapsed clock, the bytes copied, the index of the next unused
poll, and whether the loop ended by reading an empty chunk (end of file) as
opposed to observing the stop request. -/
def sacLoop (limit : ℚ) (wt : Nat → ℚ) (sp : Option Nat) (fileSize : Nat) :
    List (List Nat) → Nat → ℚ → Nat → List SacEv × ℚ × Nat × Nat × Bool
  | chunks, bytes, clock, k =>
    if isRunning sp k then
      match chunks with
      | [] => ([], clock, bytes, k + 1, true)
      | c :: rest =>
        let s := sacStep limit (wt k) fileSize bytes c.length clock
        let r := sacLoop limit wt sp fileSize rest s.2.2 s.2.1 (k + 1)
        (s.1 ++ r.1, r.2.1, r.2.2.1, r.2.2.2.1, r.2.2.2.2)
    else ([], clock, bytes, k + 1, false)

/-- Python's `str.capitalize()`. -/
def pyCapitalize (s : String) : String :=
  match s.data with
  | [] => ""
  | c :: cs => String.mk (c.toUpper :: cs.map Char.toLower)

/-- `FileWorker._execute_file_operation` (lines 58-120): compute the
effective limit, open the destination for writing, run the throttled copy
loop, and afterwards re-read the cancellation flag: if it is now `False`,
remove the partially copied destination file and report the cancellation;
otherwise, for a `"move"` operation, delete the source file.  `content` is
the byte content of the source file (`os.path.getsize` gives its length);
`wt j` is the wall time spent reading and writing at the `j`-th poll's
iteration; `k0` is the index of the first poll of the loop. -/
def executeFileOperation (op : String) (content : List Nat) (mbps : Nat)
    (wt : Nat → ℚ) (sp : Option Nat) (k0 : Nat) : List SacEv :=
  let limit := speed_limit_bps mbps
  let r := sacLoop limit wt sp content.length (chunksOf CHUNK_SIZE content) 0 0 k0
  SacEv.openDest :: r.1 ++
    (if isRunning sp r.2.2.2.1 = false then
      [SacEv.removeDest, SacEv.statusMsg "Operation cancelled. Partial file removed."]
     else if op = "move" then
      [SacEv.removeSrc, SacEv.statusMsg "Source file deleted (Move operation complete)."]
     else [])

/-- `FileWorker.run` (lines 42-56): an initial poll of the flag (index 0)
short-circuits to the `finished` signal; otherwise the operation is
announced, executed (loop polls start at index 1), and the completion
status message and `finished` signal are emitted.  The cancelled path of
`_execute_file_operation` returns normally, so `run` emits its completion
message in that case too. -/
def sacRun (op : String) (content : List Nat) (mbps : Nat)
    (wt : Nat → ℚ) (sp : Option Nat) : List SacEv :=
  if isRunning sp 0 then
    SacEv.statusMsg ("Starting " ++ op ++ " operation...") ::
      executeFileOperation op content mbps wt sp 1 ++
      [SacEv.statusMsg ("Operation complete: " ++ pyCapitalize op ++ " successful."),
       SacEv.finishedSig]
  else [SacEv.finishedSig]

/-- Whether the destination file exists once the worker has finished: it
was created by `open(dest, 'wb')` and not removed afterwards (the only
removal site is the cancellation cleanup). -/
def sacDestExists (evs : List SacEv) : Bool :=
  evs.contains SacEv.openDest && !(evs.contains SacEv.removeDest)

/-- The event kinds that the copy loop itself can emit. -/
def isChunkEv : SacEv → Bool
  | SacEv.writeChunk _ => true
  | SacEv.progressUpdate _ => true
  | SacEv.sleep _ => true
  | SacEv.speedUpdate _ => true
  | _ => false

/-- Recognizer for `sleep` events. -/
def isSleepEv : SacEv → Bool
  | SacEv.sleep _ => true
  | _ => false

/-- Recognizer for `speed_update` events. -/
def isSpeedEv : SacEv → Bool
  | SacEv.speedUpdate _ => true
  | _ => false

/-! ### Lock discipline of the cancellation flag -/

/-- Atomic actions on the cancellation flag and its mutex, in program
order. -/
inductive LockEv where
  | lock
  | unlock
  | readFlag
  | writeFlag
  deriving DecidableEq

/-- `FileOperationWorker.stop` (absolutelyfreesync.py lines 30-34):
`self.mutex.lock(); self._is_running = False; self.mutex.unlock()`. -/
def afsStopAccesses : List LockEv := [LockEv.lock, LockEv.writeFlag, LockEv.unlock]

/-- The flag poll of `FileOperationWorker.run` (lines 39-43) and of
`_process_directory` (lines 82-86): `self.mutex.lock()`, read
`self._is_running`, `self.mutex.unlock()`. -/
def afsPollAccesses : List LockEv := [LockEv.lock, LockEv.readFlag, LockEv.unlock]

/-- `FileWorker.stop` (speed_adjustable_copy.py lines 38-40):
`self._is_running = False` with no lock; the class has no mutex. -/
def sacStopAccesses : List LockEv := [LockEv.writeFlag]

/-- The flag reads of `FileWorker` (`while self._is_running:` at line 74
and the bare reads at lines 44 and 111): unguarded reads. -/
def sacPollAccesses : List LockEv := [LockEv.readFlag]

/-- Scan a sequence of actions checking that every access to the flag
happens while the lock is held. -/
def underLock : List LockEv → Bool → Bool
  | [], _ => true
  | LockEv.lock :: r, _ => underLock r true
  | LockEv.unlock :: r, _ => underLock r false
  | LockEv.readFlag :: r, held => held && underLock r held
  | LockEv.writeFlag :: r, held => held && underLock r held

/-- Every flag access of the action sequence is under the lock. -/
def accessesLocked (t : List LockEv) : Bool := underLock t false

/-! ### Trace scanners used to state the claims -/

/-- Scan a batch-worker trace, carrying the list of source paths whose MD5
comparison against their destination has succeeded so far; the Boolean is
`false` as soon as some `removeSrc p` occurs for a path `p` whose
verification has not succeeded earlier in the trace. -/
def dgScan : List AfsEv → List String → Bool × List String
  | [], ok => (true, ok)
  | AfsEv.verify s _ true :: r, ok => dgScan r (s :: ok)
  | AfsEv.removeSrc p :: r, ok =>
    let b := dgScan r ok
    (ok.contains p && b.1, b.2)
  | _ :: r, ok => dgScan r ok

/-- Every source-file deletion in the trace is preceded by a successful
MD5 comparison of that file against its destination copy. -/
def deletionsGuarded (evs : List AfsEv) : Bool := (dgScan evs []).1

/-- Scan a batch-worker trace, carrying the copies whose verification is
still pending: a `copy2` opens an obligation, a successful `verify` of the
same pair discharges it; the scan succeeds when no obligation is left. -/
def cvScan : List AfsEv → List (String × String) → Bool
  | [], pending => pending.isEmpty
  | AfsEv.copy2 s d :: r, pending => cvScan r ((s, d) :: pending)
  | AfsEv.verify s d true :: r, pending => cvScan r (pending.erase (s, d))
  | _ :: r, pending => cvScan r pending

/-- Every destination file written in the trace has a successful MD5
verification. -/
def copiesVerified (evs : List AfsEv) : Bool := cvScan evs []

/-- Recognizer for `operation_finished` events. -/
def isFinishedEv : AfsEv → Bool
  | AfsEv.finished _ _ _ => true
  | _ => false

/-- Number of `operation_finished` events in a trace. -/
def countFinished (evs : List AfsEv) : Nat := (evs.filter isFinishedEv).length

/-! ### Concrete instances used by the closed theorems -/

/-- Zero-duration chunk timing oracle. -/
def wt0 : Nat → ℚ := fun _ => 0

/-- Environment with every file unreadable: both digest computations fail. -/
def envC1 : AfsEnv := ⟨fun _ => true, fun _ => ["srcA/x"], fun _ => none, none⟩

/-- A single secure-move task over `envC1`. -/
def tasksC1 : List AfsTask := [⟨"srcA", "dstA", "verify_and_delete"⟩]

/-- Environment with every file unreadable, for the digest-failure run. -/
def envC2 : AfsEnv := ⟨fun _ => true, fun _ => ["s/f"], fun _ => none, none⟩

/-- A single secure-move task over `envC2`. -/
def tasksC2 : List AfsTask := [⟨"s", "d", "verify_and_delete"⟩]

/-- Environment for a cancelled two-file batch run: all contents readable
and identical, stop observed at poll 1. -/
def envC3 : AfsEnv := ⟨fun _ => true, fun _ => ["sw/a", "sw/b"], fun _ => some [3], some 1⟩

/-- Environment for a cancelled secure-move run whose first file is
unreadable on both the source and the destination side: every read fails,
and the stop request is observed at poll 1 (between the two files). -/
def envC3x : AfsEnv := ⟨fun _ => true, fun _ => ["sc/a", "sc/b"], fun _ => none, some 1⟩

/-- Environment where task 0's file is corrupted at the destination
(source reads `[1]`, destination reads `[2]`) and task 1's file copies
cleanly; stop is never observed. -/
def envC6 : AfsEnv :=
  ⟨fun _ => true, fun d => if d = "s0" then ["s0/a"] else ["s1/b"],
   fun p => if p = "s0/a" then some [1] else if p = "d0/a" then some [2] else some [5], none⟩

/-- Two copy tasks over `envC6`. -/
def tasksC6 : List AfsTask := [⟨"s0", "d0", "copy"⟩, ⟨"s1", "d1", "copy"⟩]

/-- Environment whose stop flag reads `False` from the very first poll. -/
def envC6b : AfsEnv := ⟨fun _ => true, fun _ => ["q/a"], fun _ => some [4], some 0⟩

/-- One copy task over `envC6b`. -/
def tasksC6b : List AfsTask := [⟨"q", "r", "copy"⟩]

/-- Environment where no directory exists. -/
def envC7 : AfsEnv := ⟨fun _ => false, fun _ => [], fun _ => none, none⟩

/-- Environment where the destination copy reads back different bytes than
the source (an injected corrupted write). -/
def envC10 : AfsEnv :=
  ⟨fun _ => true, fun _ => ["sm/x"], fun p => if p = "sm/x" then some [1] else some [2], none⟩

/-- Read oracle with one readable file `"f"` and everything else
unreadable. -/
def rfC8 : String → Option (List Nat) := fun q => if q = "f" then some [1, 2, 3] else none

/-! ### Helper lemmas -/

theorem foldl_md5update (chunks : List (List Nat)) (init : Md5State) :
    chunks.foldl md5update init = init ++ chunks.flatten := by
  induction chunks generalizing init with
  | nil => simp
  | cons c cs ih => simp [md5update, ih]

theorem chunksGo_join (bs : Nat) : ∀ (l acc : List Nat),
    (chunksGo bs l acc).flatten = acc.reverse ++ l := by
  intro l
  induction l with
  | nil =>
    intro acc
    by_cases h : acc = [] <;> simp [chunksGo, h]
  | cons a l ih =>
    intro acc
    by_cases h : acc.length + 1 = bs <;> simp [chunksGo, h, ih]

theorem hexChar_mod_lower (n : Nat) : isLowerHexChar (hexChar (n % 16)) = true := by
  have h : n % 16 < 16 := Nat.mod_lt _ (by norm_num)
  have hall : ∀ m, m < 16 → isLowerHexChar (hexChar m) = true := by decide
  exact hall _ h

theorem toHexDigits_lower : ∀ k n, (toHexDigits k n).all isLowerHexChar = true := by
  intro k
  induction k with
  | zero => intro n; simp [toHexDigits]
  | succ k ih => intro n; simp [toHexDigits, ih, hexChar_mod_lower]

theorem md5hexdigest_lower (s : Md5State) : isLowerHexStr (md5hexdigest s) = true := by
  have h := toHexDigits_lower 32 (md5mix s)
  simpa [isLowerHexStr, md5hexdigest] using h

/-! ### Claim theorems -/

/-- Claim C8: `digest(path)` reads the file in fixed-size blocks folded
into a streaming hash accumulator and returns the same lowercase hex
string as hashing the entire content at once; an unreadable file yields
the distinguished sentinel `"ERROR_HASH"` instead of an exception (the
model is a total function, so no exception escapes). -/
theorem c8_digest_contract (readFile : String → Option (List Nat)) (p : String) :
    (readFile p = none → calculate_md5 readFile p = "ERROR_HASH") ∧
    (∀ c, readFile p = some c →
      calculate_md5 readFile p = md5hexdigest (md5update md5init c) ∧
      isLowerHexStr (calculate_md5 readFile p) = true) := by
  constructor
  · intro h
    simp [calculate_md5, h]
  · intro c h
    have heq : calculate_md5 readFile p = md5hexdigest (md5update md5init c) := by
      simp [calculate_md5, h, foldl_md5update, chunksOf, chunksGo_join, md5update, md5init]
    exact ⟨heq, by rw [heq]; exact md5hexdigest_lower _⟩

/-- Witness for C8 at the concrete oracle `rfC8`: the unreadable path
returns the sentinel, the readable path returns the digest of its whole
content as a lowercase hex string. -/
theorem c8_digest_contract_witness :
    calculate_md5 rfC8 "g" = "ERROR_HASH" ∧
    (calculate_md5 rfC8 "f" = md5hexdigest (md5update md5init [1, 2, 3]) ∧
      isLowerHexStr (calculate_md5 rfC8 "f") = true) :=
  ⟨(c8_digest_contract rfC8 "g").1 (by decide),
   (c8_digest_contract rfC8 "f").2 [1, 2, 3] (by decide)⟩

/-- Claim C9, counterexample: in `FileWorker` (speed_adjustable_copy.py)
the requester's `stop()` write and the worker's polls of `_is_running`
happen with no lock at all, so the claim that the flag is accessed only
under its guarding lock in both workers is false. -/
theorem c9_counterexample :
    (accessesLocked sacStopAccesses && accessesLocked sacPollAccesses) = false := by decide

/-- Claim C9, amended: only `FileOperationWorker` (absolutelyfreesync.py)
accesses the cancellation flag under its mutex, in both `stop()` and every
poll; `FileWorker` (speed_adjustable_copy.py) has no lock, and both its
`stop()` write and its polls access the flag unguarded. -/
theorem c9_amended :
    accessesLocked afsStopAccesses = true ∧ accessesLocked afsPollAccesses = true ∧
    accessesLocked sacStopAccesses = false ∧ accessesLocked sacPollAccesses = false := by decide

/-- Claim C7: a task whose source directory does not exist fails
immediately: the only event is the failure completion naming the missing
directory, no destination directory is created, and no file is copied,
verified or deleted. -/
theorem c7_missing_source (env : AfsEnv) (idx : Nat) (srcDir dstDir mode : String) (k : Nat)
    (h : env.existsDir srcDir = false) :
    processDirectory env idx srcDir dstDir mode k =
      ([AfsEv.finished idx false ("Source directory not found: " ++ srcDir)], k, AfsExit.failed) := by
  simp [processDirectory, h]

/-- Witness for C7 at the environment with no directories. -/
theorem c7_missing_source_witness :
    processDirectory envC7 0 "s" "d" "copy" 0 =
      ([AfsEv.finished 0 false ("Source directory not found: " ++ "s")], 0, AfsExit.failed) :=
  c7_missing_source envC7 0 "s" "d" "copy" 0 (by decide)

/-- Claim C10: when the MD5 comparison of a file fails, the worker emits
the failure completion naming the file and returns at once: the trace of
the remaining per-file loop is exactly the copy of the offending file
followed by the failed verification and the failure event — the written
destination file is neither removed nor rewritten (the worker performs no
destination-removal action at all), and no later file is touched. -/
theorem c10_mismatch_keeps_dest (env : AfsEnv) (idx : Nat) (srcDir dstDir mode f : String)
    (rest : List String) (fileIdx total k : Nat)
    (hr : isRunning env.stopPoll k = true)
    (hmis : calcMd5 env f ≠ calcMd5 env (joinPath dstDir (relPath f srcDir))) :
    processFiles env idx srcDir dstDir mode (f :: rest) fileIdx total k =
      ([AfsEv.mkdirs (dirName (joinPath dstDir (relPath f srcDir))),
        AfsEv.opProgress idx (baseName f) "Copying...",
        AfsEv.copy2 f (joinPath dstDir (relPath f srcDir)),
        AfsEv.opProgress idx (baseName f) "Verifying MD5...",
        AfsEv.verify f (joinPath dstDir (relPath f srcDir)) false,
        AfsEv.finished idx false ("MD5 Mismatch for " ++ baseName f ++ ". Copy failed.")],
       k + 1, AfsExit.failed) := by
  simp [processFiles, hr, hmis]

/-- Witness for C10 at a concrete corrupted-destination run. -/
theorem c10_mismatch_keeps_dest_witness :
    processFiles envC10 0 "sm" "dm" "copy" ["sm/x"] 0 1 0 =
      ([AfsEv.mkdirs (dirName (joinPath "dm" (relPath "sm/x" "sm"))),
        AfsEv.opProgress 0 (baseName "sm/x") "Copying...",
        AfsEv.copy2 "sm/x" (joinPath "dm" (relPath "sm/x" "sm")),
        AfsEv.opProgress 0 (baseName "sm/x") "Verifying MD5...",
        AfsEv.verify "sm/x" (joinPath "dm" (relPath "sm/x" "sm")) false,
        AfsEv.finished 0 false ("MD5 Mismatch for " ++ baseName "sm/x" ++ ". Copy failed.")],
       0 + 1, AfsExit.failed) :=
  c10_mismatch_keeps_dest envC10 0 "sm" "dm" "copy" "sm/x" [] 0 1 0 (by decide) (by decide)

/-- Claim C2: the code contradicts the claim at this input.  With a
`verify_and_delete` task whose file is unreadable on both sides, both
`_calculate_md5` calls fail and both return the sentinel `"ERROR_HASH"`;
the two sentinels compare equal, so the verification guard passes, the
source file is deleted, and the task completes successfully — where the
claim requires an immediate `Failure` and no deletion. -/
theorem c2_bug_eval :
    AfsEv.removeSrc "s/f" ∈ runTasks envC2 tasksC2 ∧
    AfsEv.finished 0 true "Operation **verify_and_delete** successful." ∈ runTasks envC2 tasksC2 ∧
    envC2.readFile "s/f" = none ∧ envC2.readFile "d/f" = none := by decide

/-- Claim C1, counterexample: a source file is deleted even though no
digest of either side was ever successfully computed — both reads fail,
both `_calculate_md5` calls return the `"ERROR_HASH"` sentinel, the
sentinel compares equal to itself, and the deletion proceeds.  So deletion
is not guarded by a *successfully computed and matching* digest. -/
theorem c1_counterexample :
    AfsEv.removeSrc "srcA/x" ∈ runTasks envC1 tasksC1 ∧
    envC1.readFile "srcA/x" = none ∧
    envC1.readFile (joinPath "dstA" (relPath "srcA/x" "srcA")) = none := by decide

theorem dgScan_append (a b : List AfsEv) (ok : List String) :
    dgScan (a ++ b) ok =
      ((dgScan a ok).1 && (dgScan b (dgScan a ok).2).1, (dgScan b (dgScan a ok).2).2) := by
  induction a generalizing ok with
  | nil => simp [dgScan]
  | cons e r ih =>
    cases e with
    | overallProgress pct => simp [dgScan, ih]
    | opProgress i f m => simp [dgScan, ih]
    | finished i o m => simp [dgScan, ih]
    | mkdirs d => simp [dgScan, ih]
    | copy2 s d => simp [dgScan, ih]
    | verify s d okb => cases okb <;> simp [dgScan, ih]
    | removeSrc p => simp [dgScan, ih, Bool.and_assoc]

theorem pf_dgScan (env : AfsEnv) (idx : Nat) (sD dD m : String) :
    ∀ (files : List String) (fi tot k : Nat) (ok : List String),
      (dgScan (processFiles env idx sD dD m files fi tot k).1 ok).1 = true := by
  intro files
  induction files with
  | nil => intro fi tot k ok; simp [processFiles, dgScan]
  | cons f rest ih =>
    intro fi tot k ok
    by_cases hr : isRunning env.stopPoll k = true
    · by_cases hmis : calcMd5 env f ≠ calcMd5 env (joinPath dD (relPath f sD))
      · simp [processFiles, hr, hmis, dgScan]
      · by_cases hm : m = "verify_and_delete"
        · subst hm
          simp [processFiles, hr, hmis, dgScan, ih]
        · simp [processFiles, hr, hmis, hm, dgScan, ih]
    · simp [processFiles, hr, dgScan]

theorem pd_dgScan (env : AfsEnv) (idx : Nat) (sD dD m : String) (k : Nat) (ok : List String) :
    (dgScan (processDirectory env idx sD dD m k).1 ok).1 = true := by
  by_cases he : env.existsDir sD = false
  · simp [processDirectory, he, dgScan]
  · by_cases hw : (env.walk sD).length = 0
    · simp [processDirectory, he, hw, dgScan]
    · simp [processDirectory, he, hw, dgScan, pf_dgScan]

theorem rt_dgScan (env : AfsEnv) : ∀ (tasks : List AfsTask) (i k : Nat) (ok : List String),
    (dgScan (runTasksGo env tasks i k) ok).1 = true := by
  intro tasks
  induction tasks with
  | nil => intro i k ok; simp [runTasksGo, dgScan]
  | cons t rest ih =>
    intro i k ok
    by_cases hr : isRunning env.stopPoll k = true
    · by_cases hm : t.mode = "verify_and_delete" ∨ t.mode = "copy" <;>
        simp [runTasksGo, hr, hm, dgScan, dgScan_append, pd_dgScan, ih]
    · simp [runTasksGo, hr, dgScan]

theorem sacLoop_all_chunkEv (L : ℚ) (wt : Nat → ℚ) (sp : Option Nat) (n : Nat) :
    ∀ (chunks : List (List Nat)) (bytes : Nat) (clock : ℚ) (k : Nat),
      (sacLoop L wt sp n chunks bytes clock k).1.all isChunkEv = true := by
  intro chunks
  induction chunks with
  | nil =>
    intro bytes clock k
    by_cases hr : isRunning sp k = true <;> simp [sacLoop, hr]
  | cons c rest ih =>
    intro bytes clock k
    by_cases hr : isRunning sp k = true
    · by_cases hd : ((c.length : ℚ) / L - wt k) > 0 <;>
        simp [sacLoop, hr, sacStep, hd, isChunkEv, ih]
    · simp [sacLoop, hr]

theorem isRunning_mono (sp : Option Nat) (j k : Nat) (h : j ≤ k)
    (hf : isRunning sp j = false) : isRunning sp k = false := by
  cases sp with
  | none => simp [isRunning] at hf
  | some s => simp [isRunning] at hf ⊢; omega

theorem sacLoop_eof_false (L : ℚ) (wt : Nat → ℚ) (sp : Option Nat) (n : Nat) :
    ∀ (chunks : List (List Nat)) (bytes : Nat) (clock : ℚ) (k : Nat),
      (sacLoop L wt sp n chunks bytes clock k).2.2.2.2 = false →
      isRunning sp ((sacLoop L wt sp n chunks bytes clock k).2.2.2.1) = false := by
  intro chunks
  induction chunks with
  | nil =>
    intro bytes clock k hfa
    by_cases hr : isRunning sp k = true
    · simp [sacLoop, hr] at hfa
    · have hr' : isRunning sp k = false := by
        cases hx : isRunning sp k
        · rfl
        · exact absurd hx hr
      simp [sacLoop, hr']
      exact isRunning_mono sp k (k + 1) (by omega) hr'
  | cons c rest ih =>
    intro bytes clock k hfa
    by_cases hr : isRunning sp k = true
    · simp only [sacLoop, hr, if_true] at hfa ⊢
      exact ih _ _ _ hfa
    · have hr' : isRunning sp k = false := by
        cases hx : isRunning sp k
        · rfl
        · exact absurd hx hr
      simp [sacLoop, hr']
      exact isRunning_mono sp k (k + 1) (by omega) hr'

theorem sacRun_removeSrc_move (op : String) (content : List Nat) (mbps : Nat)
    (wt : Nat → ℚ) (sp : Option Nat)
    (h : SacEv.removeSrc ∈ sacRun op content mbps wt sp) :
    op = "move" ∧
    isRunning sp ((sacLoop (speed_limit_bps mbps) wt sp content.length
      (chunksOf CHUNK_SIZE content) 0 0 1).2.2.2.1) = true := by
  by_cases h0 : isRunning sp 0 = true
  · by_cases hpost : isRunning sp ((sacLoop (speed_limit_bps mbps) wt sp content.length
        (chunksOf CHUNK_SIZE content) 0 0 1).2.2.2.1) = false
    · exfalso
      have hall := sacLoop_all_chunkEv (speed_limit_bps mbps) wt sp content.length
        (chunksOf CHUNK_SIZE content) 0 0 1
      rw [List.all_eq_true] at hall
      simp [sacRun, executeFileOperation, h0, hpost] at h
      have := hall _ h
      simp [isChunkEv] at this
    · by_cases hop : op = "move"
      · refine ⟨hop, ?_⟩
        cases hx : isRunning sp ((sacLoop (speed_limit_bps mbps) wt sp content.length
            (chunksOf CHUNK_SIZE content) 0 0 1).2.2.2.1)
        · exact absurd hx hpost
        · rfl
      · exfalso
        have hall := sacLoop_all_chunkEv (speed_limit_bps mbps) wt sp content.length
          (chunksOf CHUNK_SIZE content) 0 0 1
        rw [List.all_eq_true] at hall
        simp [sacRun, executeFileOperation, h0, hpost, hop] at h
        have := hall _ h
        simp [isChunkEv] at this
  · simp [sacRun, h0] at h

/-- Claim C1, amended: under `verify_and_delete`, a source file is deleted
only after the two `_calculate_md5` result strings for it and its
destination copy compared equal — where either result may be the
`"ERROR_HASH"` failure sentinel, so string equality does not imply a
successfully computed digest; in the throttled copier, the source file is
deleted only in `"move"` mode and only when the copy loop ran to end of
file with no cancellation observed, with no digest computed at all. -/
theorem c1_amended (env : AfsEnv) (tasks : List AfsTask) (op : String) (content : List Nat)
    (mbps : Nat) (wt : Nat → ℚ) (sp : Option Nat) :
    deletionsGuarded (runTasks env tasks) = true ∧
    (op ≠ "move" → SacEv.removeSrc ∉ sacRun op content mbps wt sp) ∧
    (isRunning sp ((sacLoop (speed_limit_bps mbps) wt sp content.length
        (chunksOf CHUNK_SIZE content) 0 0 1).2.2.2.1) = false →
      SacEv.removeSrc ∉ sacRun op content mbps wt sp) := by
  refine ⟨?_, ?_, ?_⟩
  · unfold deletionsGuarded runTasks
    rw [dgScan_append]
    simp [rt_dgScan, dgScan]
  · intro hop h
    exact hop (sacRun_removeSrc_move op content mbps wt sp h).1
  · intro hpost h
    have h2 := (sacRun_removeSrc_move op content mbps wt sp h).2
    rw [hpost] at h2
    exact Bool.false_ne_true h2

/-- Witness for C1 (amended): the guard holds on a concrete batch run, and
the throttled copier deletes no source on a non-move run nor on a
cancelled move run. -/
theorem c1_amended_witness :
    deletionsGuarded (runTasks envC1 tasksC1) = true ∧
    SacEv.removeSrc ∉ sacRun "copy" [7] 1 wt0 none ∧
    SacEv.removeSrc ∉ sacRun "move" [7] 1 wt0 (some 0) :=
  ⟨(c1_amended envC1 tasksC1 "copy" [7] 1 wt0 none).1,
   (c1_amended envC1 tasksC1 "copy" [7] 1 wt0 none).2.1 (by decide),
   (c1_amended envC1 tasksC1 "move" [7] 1 wt0 (some 0)).2.2 (by decide)⟩

theorem countFinished_append (a b : List AfsEv) :
    countFinished (a ++ b) = countFinished a + countFinished b := by
  simp [countFinished, List.filter_append]

theorem countFinished_cons (e : AfsEv) (r : List AfsEv) :
    countFinished (e :: r) = (if isFinishedEv e then 1 else 0) + countFinished r := by
  by_cases h : isFinishedEv e = true <;> (simp [countFinished, List.filter_cons, h]; try omega)

theorem pf_count (env : AfsEnv) (idx : Nat) (sD dD m : String) (hsp : env.stopPoll = none) :
    ∀ (files : List String) (fi tot k : Nat),
      countFinished (processFiles env idx sD dD m files fi tot k).1 = 1 := by
  intro files
  induction files with
  | nil => intro fi tot k; simp [processFiles, countFinished, isFinishedEv]
  | cons f rest ih =>
    intro fi tot k
    have hr : isRunning env.stopPoll k = true := by simp [isRunning, hsp]
    by_cases hmis : calcMd5 env f ≠ calcMd5 env (joinPath dD (relPath f sD))
    · simp [processFiles, hr, hmis, countFinished, isFinishedEv]
    · by_cases hm : m = "verify_and_delete"
      · subst hm
        simp [processFiles, hr, hmis, countFinished_cons, countFinished_append,
          isFinishedEv, ih]
      · simp [processFiles, hr, hmis, hm, countFinished_cons, countFinished_append,
          isFinishedEv, ih]

theorem pd_count (env : AfsEnv) (idx : Nat) (sD dD m : String) (k : Nat)
    (hsp : env.stopPoll = none) :
    countFinished (processDirectory env idx sD dD m k).1 = 1 := by
  by_cases he : env.existsDir sD = false
  · simp [processDirectory, he, countFinished, isFinishedEv]
  · by_cases hw : (env.walk sD).length = 0
    · simp [processDirectory, he, hw, countFinished, isFinishedEv]
    · simp [processDirectory, he, hw, countFinished_cons, isFinishedEv,
        pf_count env idx sD dD m hsp]

theorem rt_count (env : AfsEnv) (hsp : env.stopPoll = none) :
    ∀ (tasks : List AfsTask) (i k : Nat),
      countFinished (runTasksGo env tasks i k) = tasks.length := by
  intro tasks
  induction tasks with
  | nil => intro i k; simp [runTasksGo, countFinished]
  | cons t rest ih =>
    intro i k
    have hr : isRunning env.stopPoll k = true := by simp [isRunning, hsp]
    by_cases hm : t.mode = "verify_and_delete" ∨ t.mode = "copy" <;>
      simp [runTasksGo, hr, hm, countFinished_cons, countFinished_append, isFinishedEv,
        pd_count env i t.source t.destination t.mode _ hsp, ih] <;>
      omega

/-- Claim C6, counterexample: task 0 ends in Failure (MD5 mismatch), the
app's failure handler only requests a stop after a user confirmation
(declined here, so no stop request is issued), and the worker then
executes task 1 to successful completion — the queue is not halted by the
failure. -/
theorem c6_counterexample :
    handlerRequestsStop false false = false ∧
    AfsEv.finished 0 false "MD5 Mismatch for a. Copy failed." ∈ runTasks envC6 tasksC6 ∧
    AfsEv.finished 1 true "Operation **copy** successful." ∈ runTasks envC6 tasksC6 := by decide

/-- Claim C6, amended: a task failure does not by itself halt the queue —
the worker continues with the next task, and halting happens only through
the cancellation flag (which the app sets on failure only after the user
confirms the stop dialog).  If the flag is never set, every queued task is
executed and emits exactly one completion event; once a poll observes the
flag as `False`, no further task runs and the remaining tasks emit no
events at all (they stay pending). -/
theorem c6_amended (env : AfsEnv) (tasks : List AfsTask) :
    (env.stopPoll = none → countFinished (runTasks env tasks) = tasks.length) ∧
    (∀ i k, isRunning env.stopPoll k = false → runTasksGo env tasks i k = []) := by
  constructor
  · intro hsp
    rw [runTasks, countFinished_append, rt_count env hsp]
    simp [countFinished, isFinishedEv]
  · intro i k hk
    cases tasks with
    | nil => rfl
    | cons t rest => simp [runTasksGo, hk]

/-- Witness for C6 (amended): with no stop request both queued tasks run
(two completion events) although the first fails; with the flag down from
the first poll, the worker runs nothing. -/
theorem c6_amended_witness :
    countFinished (runTasks envC6 tasksC6) = tasksC6.length ∧
    runTasksGo envC6b tasksC6b 0 0 = [] :=
  ⟨(c6_amended envC6 tasksC6).1 rfl, (c6_amended envC6b tasksC6b).2 0 0 (by decide)⟩

theorem pf_cvScan (env : AfsEnv) (idx : Nat) (sD dD m : String) :
    ∀ (files : List String) (fi tot k : Nat),
      (processFiles env idx sD dD m files fi tot k).2.2 = AfsExit.stopped →
      ∀ (tail : List AfsEv) (pending : List (String × String)),
        cvScan ((processFiles env idx sD dD m files fi tot k).1 ++ tail) pending =
          cvScan tail pending := by
  intro files
  induction files with
  | nil =>
    intro fi tot k hst
    simp [processFiles] at hst
  | cons f rest ih =>
    intro fi tot k hst tail pending
    by_cases hr : isRunning env.stopPoll k = true
    · by_cases hmis : calcMd5 env f ≠ calcMd5 env (joinPath dD (relPath f sD))
      · simp [processFiles, hr, hmis] at hst
      · by_cases hm : m = "verify_and_delete"
        · subst hm
          have hst' : (processFiles env idx sD dD "verify_and_delete" rest
              (fi + 1) tot (k + 1)).2.2 = AfsExit.stopped := by
            simpa [processFiles, hr, hmis] using hst
          simp [processFiles, hr, hmis, cvScan, List.erase_cons_head,
            ih _ _ _ hst' tail pending]
        · have hst' : (processFiles env idx sD dD m rest
              (fi + 1) tot (k + 1)).2.2 = AfsExit.stopped := by
            simpa [processFiles, hr, hmis, hm] using hst
          simp [processFiles, hr, hmis, hm, cvScan, List.erase_cons_head,
            ih _ _ _ hst' tail pending]
    · simp [processFiles, hr, cvScan]

/-- Claim C3, counterexample: a cancelled batch run can leave a
destination file that exists but is not a digest-verified copy.  With the
first file unreadable on both sides, both `_calculate_md5` calls return
the `"ERROR_HASH"` sentinel, the string-equality check passes without any
digest having been computed, the destination copy is written (and the
worker has no destination-removal action), the source file is even
deleted, and then the stop request is observed and the run ends
`stopped` — so after this cancellation there exists a destination file
that no successfully computed digest ever verified, falsifying the claim
that after any cancellation every existing destination file is a
digest-verified copy. -/
theorem c3_counterexample :
    (processFiles envC3x 0 "sc" "dc" "verify_and_delete" ["sc/a", "sc/b"] 0 2 0).2.2 =
      AfsExit.stopped ∧
    AfsEv.copy2 "sc/a" "dc/a" ∈
      (processFiles envC3x 0 "sc" "dc" "verify_and_delete" ["sc/a", "sc/b"] 0 2 0).1 ∧
    AfsEv.removeSrc "sc/a" ∈
      (processFiles envC3x 0 "sc" "dc" "verify_and_delete" ["sc/a", "sc/b"] 0 2 0).1 ∧
    envC3x.readFile "sc/a" = none ∧ envC3x.readFile "dc/a" = none := by decide

/-- Claim C3, amended: when a stop request is observed by the throttled
copier (the run started, and the post-loop re-read of the flag sees
`False`), the partially written destination file is removed and only then
is the cancellation reported: the whole trace is the start message, the
destination creation, pure chunk-transfer events, and then exactly
`removeDest` immediately followed by the cancellation message — so the
destination file does not exist afterwards, and the source file was not
deleted.  In the batch worker, cancellation takes effect only between
whole files (no partial in-flight artifact exists), and a per-file loop
that ended because of a stop request leaves only destination files whose
MD5 string-equality check succeeded — which, because either comparand may
be the `"ERROR_HASH"` sentinel, does not guarantee a successfully
computed digest match. -/
theorem c3_amended (op : String) (content : List Nat) (mbps : Nat)
    (wt : Nat → ℚ) (sp : Option Nat)
    (h0 : isRunning sp 0 = true)
    (hc : isRunning sp ((sacLoop (speed_limit_bps mbps) wt sp content.length
      (chunksOf CHUNK_SIZE content) 0 0 1).2.2.2.1) = false) :
    (sacRun op content mbps wt sp =
      SacEv.statusMsg ("Starting " ++ op ++ " operation...") :: SacEv.openDest ::
        (sacLoop (speed_limit_bps mbps) wt sp content.length
          (chunksOf CHUNK_SIZE content) 0 0 1).1 ++
        [SacEv.removeDest, SacEv.statusMsg "Operation cancelled. Partial file removed.",
         SacEv.statusMsg ("Operation complete: " ++ pyCapitalize op ++ " successful."),
         SacEv.finishedSig]) ∧
    ((sacLoop (speed_limit_bps mbps) wt sp content.length
      (chunksOf CHUNK_SIZE content) 0 0 1).1.all isChunkEv = true) ∧
    sacDestExists (sacRun op content mbps wt sp) = false ∧
    SacEv.removeSrc ∉ sacRun op content mbps wt sp ∧
    (∀ (env : AfsEnv) (idx : Nat) (sD dD m : String) (files : List String) (fi tot k : Nat),
      (processFiles env idx sD dD m files fi tot k).2.2 = AfsExit.stopped →
      copiesVerified (processFiles env idx sD dD m files fi tot k).1 = true) := by
  have heq : sacRun op content mbps wt sp =
      SacEv.statusMsg ("Starting " ++ op ++ " operation...") :: SacEv.openDest ::
        (sacLoop (speed_limit_bps mbps) wt sp content.length
          (chunksOf CHUNK_SIZE content) 0 0 1).1 ++
        [SacEv.removeDest, SacEv.statusMsg "Operation cancelled. Partial file removed.",
         SacEv.statusMsg ("Operation complete: " ++ pyCapitalize op ++ " successful."),
         SacEv.finishedSig] := by
    simp [sacRun, executeFileOperation, h0, hc]
  refine ⟨heq, sacLoop_all_chunkEv _ _ _ _ _ _ _ _, ?_, ?_, ?_⟩
  · have hmem : SacEv.removeDest ∈ sacRun op content mbps wt sp := by
      rw [heq]; simp
    have hbool : (sacRun op content mbps wt sp).contains SacEv.removeDest = true :=
      List.elem_eq_true_of_mem hmem
    simp only [sacDestExists, hbool]
    simp
  · intro h
    have h2 := (sacRun_removeSrc_move op content mbps wt sp h).2
    rw [hc] at h2
    exact Bool.false_ne_true h2
  · intro env2 idx2 sD dD m2 files fi tot k hst
    have h1 := pf_cvScan env2 idx2 sD dD m2 files fi tot k hst [] []
    rw [List.append_nil] at h1
    simpa [copiesVerified, cvScan] using h1

/-- Witness for C3 (amended): a copy of a one-chunk file cancelled at
poll 2 (after the chunk, before the end-of-file read is acted on), and a
batch run over two identical files whose stop is observed before the
second file. -/
theorem c3_amended_witness :
    sacDestExists (sacRun "copy" [7] 1 wt0 (some 2)) = false ∧
    SacEv.removeSrc ∉ sacRun "copy" [7] 1 wt0 (some 2) ∧
    copiesVerified (processFiles envC3 0 "sw" "dw" "copy" ["sw/a", "sw/b"] 0 2 0).1 = true :=
  ⟨(c3_amended "copy" [7] 1 wt0 (some 2) (by decide) (by decide)).2.2.1,
   (c3_amended "copy" [7] 1 wt0 (some 2) (by decide) (by decide)).2.2.2.1,
   (c3_amended "copy" [7] 1 wt0 (some 2) (by decide) (by decide)).2.2.2.2
     envC3 0 "sw" "dw" "copy" ["sw/a", "sw/b"] 0 2 0 (by decide)⟩

theorem sacStep_clock (limit actual : ℚ) (n b cl : Nat) (clock : ℚ) :
    (sacStep limit actual n b cl clock).2.1 =
      if ((cl : ℚ) / limit - actual) > 0
      then clock + actual + ((cl : ℚ) / limit - actual)
      else clock + actual := by
  by_cases hd : ((cl : ℚ) / limit - actual) > 0 <;> simp [sacStep, hd]

theorem sacStep_clock_ge (limit actual : ℚ) (n b cl : Nat) (clock : ℚ) :
    clock + (cl : ℚ) / limit ≤ (sacStep limit actual n b cl clock).2.1 := by
  rw [sacStep_clock]
  by_cases hd : ((cl : ℚ) / limit - actual) > 0
  · rw [if_pos hd]; linarith
  · rw [if_neg hd]; push_neg at hd; linarith

theorem speed_limit_bps_pos (mbps : Nat) : 0 < speed_limit_bps mbps := by
  simp only [speed_limit_bps]
  by_cases h : (mbps * 1024 * 1024 : Nat) ≤ 0
  · rw [if_pos h]
    norm_num [MAX_SPEED_BPS, MAX_SPEED_MBPS]
  · rw [if_neg h]
    push_neg at h
    exact_mod_cast h

theorem sacLoop_bound (L : ℚ) (hL : 0 < L) (wt : Nat → ℚ) (sp : Option Nat) (n : Nat) :
    ∀ (chunks : List (List Nat)) (bytes : Nat) (clock : ℚ) (k : Nat),
      ((sacLoop L wt sp n chunks bytes clock k).2.2.1 : ℚ) - (bytes : ℚ) ≤
        ((sacLoop L wt sp n chunks bytes clock k).2.1 - clock) * L := by
  intro chunks
  induction chunks with
  | nil =>
    intro bytes clock k
    by_cases hr : isRunning sp k = true <;> simp [sacLoop, hr]
  | cons c rest ih =>
    intro bytes clock k
    by_cases hr : isRunning sp k = true
    · simp only [sacLoop, hr, if_true]
      have hb : (sacStep L (wt k) n bytes c.length clock).2.2 = bytes + c.length := rfl
      rw [hb]
      have hrec := ih (bytes + c.length) (sacStep L (wt k) n bytes c.length clock).2.1 (k + 1)
      have hmul : (c.length : ℚ) ≤
          ((sacStep L (wt k) n bytes c.length clock).2.1 - clock) * L := by
        have h2 : (c.length : ℚ) / L * L ≤
            ((sacStep L (wt k) n bytes c.length clock).2.1 - clock) * L := by
          apply mul_le_mul_of_nonneg_right _ (le_of_lt hL)
          linarith [sacStep_clock_ge L (wt k) n bytes c.length clock]
        rwa [div_mul_cancel₀ _ (ne_of_gt hL)] at h2
      have hring : ((sacLoop L wt sp n rest (bytes + c.length)
            (sacStep L (wt k) n bytes c.length clock).2.1 (k + 1)).2.1 - clock) * L =
          ((sacLoop L wt sp n rest (bytes + c.length)
            (sacStep L (wt k) n bytes c.length clock).2.1 (k + 1)).2.1 -
            (sacStep L (wt k) n bytes c.length clock).2.1) * L +
          ((sacStep L (wt k) n bytes c.length clock).2.1 - clock) * L := by ring
      push_cast at hrec ⊢
      linarith [hrec, hmul, hring]
    · simp [sacLoop, hr]

/-- Claim C4: with a configured ceiling of 0 the effective limit is the
fixed fallback constant `MAX_SPEED_BPS * 2` (pacing is substituted, not
disabled), and any run of the copy loop at that setting transfers at most
`elapsed time × fallback constant` bytes — throughput stays bounded by the
fallback constant rather than being unbounded. -/
theorem c4_zero_ceiling_bound (wt : Nat → ℚ) (sp : Option Nat) (n : Nat)
    (chunks : List (List Nat)) (bytes : Nat) (clock : ℚ) (k : Nat) :
    speed_limit_bps 0 = ((MAX_SPEED_BPS * 2 : Nat) : ℚ) ∧
    ((sacLoop (speed_limit_bps 0) wt sp n chunks bytes clock k).2.2.1 : ℚ) - (bytes : ℚ) ≤
      ((sacLoop (speed_limit_bps 0) wt sp n chunks bytes clock k).2.1 - clock) *
        ((MAX_SPEED_BPS * 2 : Nat) : ℚ) := by
  have h1 : speed_limit_bps 0 = ((MAX_SPEED_BPS * 2 : Nat) : ℚ) := by
    simp [speed_limit_bps]
  refine ⟨h1, ?_⟩
  rw [← h1]
  exact sacLoop_bound (speed_limit_bps 0) (speed_limit_bps_pos 0) wt sp n chunks bytes clock k

/-- Claim C5: for a chunk of `chunkLen` bytes whose read+write took
`actual` seconds, with `target = chunkLen / limit`: the iteration's clock
advances by `actual` plus exactly `target - actual` when `target > actual`
and by `actual` alone otherwise (no extra delay); it emits exactly one
sleep event, of duration exactly `target - actual`, precisely when
`target > actual`; the elapsed time is then positive and the iteration
emits exactly one throughput sample, whose value is the cumulative bytes
copied divided by the elapsed time since the start of the operation
(scaled by `1/2^20`, since the `speed_update` signal carries MB/s). -/
theorem c5_chunk_pacing (limit actual : ℚ) (fileSize bytes chunkLen : Nat) (clock : ℚ)
    (hlen : 0 < chunkLen) (hlim : 0 < limit) (hcl : 0 ≤ clock) :
    (sacStep limit actual fileSize bytes chunkLen clock).2.1 =
      (if ((chunkLen : ℚ) / limit - actual) > 0
        then clock + actual + ((chunkLen : ℚ) / limit - actual)
        else clock + actual) ∧
    (sacStep limit actual fileSize bytes chunkLen clock).1.filter isSleepEv =
      (if ((chunkLen : ℚ) / limit - actual) > 0
        then [SacEv.sleep ((chunkLen : ℚ) / limit - actual)] else []) ∧
    0 < (sacStep limit actual fileSize bytes chunkLen clock).2.1 ∧
    (sacStep limit actual fileSize bytes chunkLen clock).1.filter isSpeedEv =
      [SacEv.speedUpdate
        ((((sacStep limit actual fileSize bytes chunkLen clock).2.2 : ℚ) /
          (sacStep limit actual fileSize bytes chunkLen clock).2.1) / (1024 * 1024))] ∧
    (sacStep limit actual fileSize bytes chunkLen clock).2.2 = bytes + chunkLen := by
  have ht : 0 < (chunkLen : ℚ) / limit := div_pos (by exact_mod_cast hlen) hlim
  have hpos : 0 < (sacStep limit actual fileSize bytes chunkLen clock).2.1 := by
    rw [sacStep_clock]
    by_cases hd : ((chunkLen : ℚ) / limit - actual) > 0
    · rw [if_pos hd]; linarith
    · rw [if_neg hd]; push_neg at hd; linarith
  refine ⟨sacStep_clock _ _ _ _ _ _, ?_, hpos, ?_, rfl⟩
  · by_cases hd : ((chunkLen : ℚ) / limit - actual) > 0 <;>
      simp [sacStep, hd, isSleepEv]
  · by_cases hd : ((chunkLen : ℚ) / limit - actual) > 0
    · have hp : 0 < clock + (chunkLen : ℚ) / limit := by linarith
      simp [sacStep, hd, isSpeedEv, hp]
    · push_neg at hd
      have hp : 0 < clock + actual := by linarith
      have hd' : ¬ ((chunkLen : ℚ) / limit - actual) > 0 := by linarith
      simp [sacStep, hd', isSpeedEv, hp]

/-- Witness for C5 at a one-byte chunk, limit 1 byte/s, zero write time:
the step sleeps exactly one second and emits the sample `1 / 1` scaled to
MB/s. -/
theorem c5_chunk_pacing_witness :
    (sacStep 1 0 1 0 1 0).2.1 =
      (if (((1 : Nat) : ℚ) / 1 - 0) > 0
        then 0 + 0 + (((1 : Nat) : ℚ) / 1 - 0)
        else 0 + 0) ∧
    (sacStep 1 0 1 0 1 0).1.filter isSleepEv =
      (if (((1 : Nat) : ℚ) / 1 - 0) > 0
        then [SacEv.sleep (((1 : Nat) : ℚ) / 1 - 0)] else []) ∧
    0 < (sacStep 1 0 1 0 1 0).2.1 ∧
    (sacStep 1 0 1 0 1 0).1.filter isSpeedEv =
      [SacEv.speedUpdate
        ((((sacStep 1 0 1 0 1 0).2.2 : ℚ) / (sacStep 1 0 1 0 1 0).2.1) / (1024 * 1024))] ∧
    (sacStep 1 0 1 0 1 0).2.2 = 0 + 1 :=
  c5_chunk_pacing 1 0 1 0 1 0 (by norm_num) (by norm_num) (by norm_num)
